import Mathlib

set_option maxHeartbeats 1000000

/-! Shallow embedding of the response-classification and diagram-rendering
pipeline of `src/index.tsx`.  JavaScript numbers are modelled as rationals
(`Rat`); a `NaN` produced by a failed `parseFloat` is modelled as
`Option.none`, and the JavaScript builtins `JSON.parse`, `parseFloat`,
`String.prototype.split` and the one regular expression the code uses are
modelled by executable Lean functions below. -/

/-- A 2-D point with rational coordinates, as returned by
`getTerminalCoords` in `src/index.tsx`. -/
structure Point where
  x : Rat
  y : Rat
  deriving DecidableEq, Repr

/-- The closed `ComponentType` union of `src/index.tsx`
(four schematic kinds and five single-line kinds). -/
inductive ComponentType where
  | battery
  | resistor
  | led
  | switch
  | generator
  | transformer
  | bus
  | breaker
  | load
  deriving DecidableEq, Repr

/-- The `state` field values of a switch or breaker component
(the string union given in the `DiagramComponent` interface).
`open` is a Lean keyword, hence the trailing underscore. -/
inductive SwitchState where
  | open_
  | closed
  deriving DecidableEq, Repr

/-- The `diagramType` field values of the `DiagramData` interface. -/
inductive DiagramKind where
  | schematic
  | singleLine
  deriving DecidableEq, Repr

/-- The `DiagramComponent` interface of `src/index.tsx`.  Optional fields
are modelled as `Option`; `from` is not used here so field names match the
source. -/
structure DiagramComponent where
  id : String
  type : ComponentType
  x : Rat
  y : Rat
  label : String
  state : Option SwitchState
  width : Option Rat
  deriving DecidableEq, Repr

/-- The `DiagramConnection` interface of `src/index.tsx`; the TypeScript
fields `from` and `to` are Lean keywords and become `from_` / `to_`. -/
structure DiagramConnection where
  from_ : String
  to_ : String
  deriving DecidableEq, Repr

/-- The `DiagramData` interface of `src/index.tsx`. -/
structure DiagramData where
  diagramType : Option DiagramKind
  width : Rat
  height : Rat
  components : List DiagramComponent
  connections : List DiagramConnection
  deriving DecidableEq, Repr

/-- JSON values, as produced by the model of `JSON.parse`. -/
inductive Json where
  | null
  | bool (b : Bool)
  | num (q : Rat)
  | str (s : String)
  | arr (elems : List Json)
  | obj (fields : List (String × Json))
  deriving Repr

/-- JavaScript truthiness of a JSON value (`if (parsedJson)`,
`parsedJson.prompt`, `parsedJson.components` are truthiness tests in the
source).  `NaN` cannot be produced by `JSON.parse`, so numbers are falsy
exactly when zero. -/
def jsTruthy : Json → Bool
  | Json.null => false
  | Json.bool b => b
  | Json.num q => if q = 0 then false else true
  | Json.str s => if s = "" then false else true
  | Json.arr _ => true
  | Json.obj _ => true

/-- JavaScript property access `v.k` on a parsed JSON value: defined only
on objects (on every other JSON value the properties read by the source
are `undefined`, modelled as `none`).  With duplicate keys `JSON.parse`
keeps the last occurrence, hence the left fold. -/
def jsField (v : Json) (k : String) : Option Json :=
  match v with
  | Json.obj fs => fs.foldl (fun acc kv => if kv.1 = k then some kv.2 else acc) none
  | _ => none

/-- JSON insignificant whitespace (space, tab, line feed, carriage
return), skipped by `JSON.parse`. -/
def skipWs : List Char → List Char
  | [] => []
  | c :: cs => if c = ' ' ∨ c = '\t' ∨ c = '\n' ∨ c = '\r' then skipWs cs else c :: cs

/-- Numeric value of a decimal digit string. -/
def digitsToNat (ds : List Char) : Nat :=
  ds.foldl (fun acc c => acc * 10 + (c.toNat - 48)) 0

/-- Splits the longest leading run of decimal digits from the rest. -/
def takeDigits : List Char → List Char × List Char
  | [] => ([], [])
  | c :: cs =>
    if c.isDigit then
      match takeDigits cs with
      | (ds, rest) => (c :: ds, rest)
    else ([], c :: cs)

/-- Rational addition, via `mkRat` so that it reduces inside the kernel
(the library operations `Rat.add` … are `irreducible`).  Proved equal to
`a + b` in `qAdd_eq` below. -/
def qAdd (a b : Rat) : Rat := mkRat (a.num * b.den + b.num * a.den) (a.den * b.den)

/-- Rational negation via `mkRat`; proved equal to `-a` in `qNeg_eq`. -/
def qNeg (a : Rat) : Rat := mkRat (-a.num) a.den

/-- Rational subtraction via `mkRat`; proved equal to `a - b` in `qSub_eq`. -/
def qSub (a b : Rat) : Rat := qAdd a (qNeg b)

/-- Rational halving via `mkRat`; proved equal to `a / 2` in `qHalf_eq`. -/
def qHalf (a : Rat) : Rat := mkRat a.num (2 * a.den)

/-- Assembles the rational value `± (ip + 0.fds) · 10^(±ev)` of a decimal
literal from sign, integer part, fraction digits and a signed decimal
exponent, as a single `mkRat` over powers of ten (see `ratFromParts_eq`
for the textbook form). -/
def ratFromParts (neg : Bool) (ip : Nat) (fds : List Char) (expNeg : Bool) (ev : Nat) : Rat :=
  let mant : Nat := ip * 10 ^ fds.length + digitsToNat fds
  let sgnMant : Int := if neg then -(mant : Int) else (mant : Int)
  if expNeg then mkRat sgnMant (10 ^ (fds.length + ev))
  else mkRat (sgnMant * (10 : Int) ^ ev) (10 ^ fds.length)

/-- Requires at least one decimal digit; returns the digits and the rest. -/
def requireDigits (cs : List Char) : Option (List Char × List Char) :=
  match takeDigits cs with
  | ([], _) => none
  | (ds, r) => some (ds, r)

/-- JSON number, after integer and fraction parts: optional exponent. -/
def parseNumAfterFrac (neg : Bool) (ip : Nat) (fds : List Char) (cs : List Char) :
    Option (Json × List Char) :=
  match cs with
  | c :: r =>
    if c = 'e' ∨ c = 'E' then
      match r with
      | '-' :: r2 =>
        (requireDigits r2).map (fun dr =>
          (Json.num (ratFromParts neg ip fds true (digitsToNat dr.1)), dr.2))
      | '+' :: r2 =>
        (requireDigits r2).map (fun dr =>
          (Json.num (ratFromParts neg ip fds false (digitsToNat dr.1)), dr.2))
      | _ =>
        (requireDigits r).map (fun dr =>
          (Json.num (ratFromParts neg ip fds false (digitsToNat dr.1)), dr.2))
    else some (Json.num (ratFromParts neg ip fds false 0), c :: r)
  | [] => some (Json.num (ratFromParts neg ip fds false 0), [])

/-- JSON number, after the integer part: optional fraction (requiring at
least one digit), then exponent. -/
def parseNumAfterInt (neg : Bool) (ip : Nat) (cs : List Char) : Option (Json × List Char) :=
  match cs with
  | '.' :: r =>
    match takeDigits r with
    | ([], _) => none
    | (fds, r2) => parseNumAfterFrac neg ip fds r2
  | _ => parseNumAfterFrac neg ip [] cs

/-- A JSON number per RFC 8259 (the grammar `JSON.parse` accepts): optional
minus sign, `0` or a nonzero-led digit run, optional fraction, optional
exponent.  Leading zeros and a bare minus are rejected. -/
def parseJsonNumber (cs : List Char) : Option (Json × List Char) :=
  let sp : Bool × List Char :=
    match cs with
    | '-' :: r => (true, r)
    | _ => (false, cs)
  match sp.2 with
  | [] => none
  | c :: r =>
    if c = '0' then parseNumAfterInt sp.1 0 r
    else if c.isDigit then
      match takeDigits r with
      | (ds, r2) => parseNumAfterInt sp.1 (digitsToNat (c :: ds)) r2
    else none

/-- Value of a hexadecimal digit. -/
def hexVal (c : Char) : Option Nat :=
  if '0' ≤ c ∧ c ≤ '9' then some (c.toNat - 48)
  else if 'a' ≤ c ∧ c ≤ 'f' then some (c.toNat - 87)
  else if 'A' ≤ c ∧ c ≤ 'F' then some (c.toNat - 55)
  else none

/-- Body of a JSON string literal, after the opening quote, accumulating
decoded characters.  The JSON escapes are decoded; raw control characters
are rejected as `JSON.parse` does.  A `\u` escape denoting an unpaired
surrogate is out of scope for the claims and maps through `Char.ofNat`. -/
def parseStringBody : List Char → List Char → Option (String × List Char)
  | [], _ => none
  | '"' :: rest, acc => some (String.mk acc.reverse, rest)
  | '\\' :: '"' :: r, acc => parseStringBody r ('"' :: acc)
  | '\\' :: '\\' :: r, acc => parseStringBody r ('\\' :: acc)
  | '\\' :: '/' :: r, acc => parseStringBody r ('/' :: acc)
  | '\\' :: 'b' :: r, acc => parseStringBody r ('\x08' :: acc)
  | '\\' :: 'f' :: r, acc => parseStringBody r ('\x0c' :: acc)
  | '\\' :: 'n' :: r, acc => parseStringBody r ('\n' :: acc)
  | '\\' :: 'r' :: r, acc => parseStringBody r ('\r' :: acc)
  | '\\' :: 't' :: r, acc => parseStringBody r ('\t' :: acc)
  | '\\' :: 'u' :: a :: b :: c :: d :: r, acc =>
    match hexVal a, hexVal b, hexVal c, hexVal d with
    | some ha, some hb, some hc, some hd =>
      parseStringBody r (Char.ofNat (((ha * 16 + hb) * 16 + hc) * 16 + hd) :: acc)
    | _, _, _, _ => none
  | '\\' :: _, _ => none
  | c :: rest, acc => if c.toNat < 32 then none else parseStringBody rest (c :: acc)

mutual

/-- One JSON value (model of the recursive core of `JSON.parse`), fuelled
to make the recursion structural. -/
def parseVal (fuel : Nat) (cs : List Char) : Option (Json × List Char) :=
  match fuel with
  | 0 => none
  | Nat.succ f =>
    match skipWs cs with
    | [] => none
    | '{' :: rest => parseObjFields f rest []
    | '[' :: rest => parseArrElems f rest []
    | '"' :: rest => (parseStringBody rest []).map (fun p => (Json.str p.1, p.2))
    | 't' :: 'r' :: 'u' :: 'e' :: rest => some (Json.bool true, rest)
    | 'f' :: 'a' :: 'l' :: 's' :: 'e' :: rest => some (Json.bool false, rest)
    | 'n' :: 'u' :: 'l' :: 'l' :: rest => some (Json.null, rest)
    | cs' => parseJsonNumber cs'

/-- Elements of a JSON array, after the opening bracket. -/
def parseArrElems (fuel : Nat) (cs : List Char) (acc : List Json) :
    Option (Json × List Char) :=
  match fuel with
  | 0 => none
  | Nat.succ f =>
    match acc, skipWs cs with
    | [], ']' :: rest => some (Json.arr [], rest)
    | _, cs' =>
      match parseVal f cs' with
      | none => none
      | some (v, rest) =>
        match skipWs rest with
        | ',' :: rest2 => parseArrElems f rest2 (v :: acc)
        | ']' :: rest2 => some (Json.arr (v :: acc).reverse, rest2)
        | _ => none

/-- Members of a JSON object, after the opening brace. -/
def parseObjFields (fuel : Nat) (cs : List Char) (acc : List (String × Json)) :
    Option (Json × List Char) :=
  match fuel with
  | 0 => none
  | Nat.succ f =>
    match acc, skipWs cs with
    | [], '}' :: rest => some (Json.obj [], rest)
    | _, cs' =>
      match cs' with
      | '"' :: rest =>
        match parseStringBody rest [] with
        | none => none
        | some (key, rest2) =>
          match skipWs rest2 with
          | ':' :: rest3 =>
            match parseVal f rest3 with
            | none => none
            | some (v, rest4) =>
              match skipWs rest4 with
              | ',' :: rest5 => parseObjFields f rest5 ((key, v) :: acc)
              | '}' :: rest5 => some (Json.obj ((key, v) :: acc).reverse, rest5)
              | _ => none
          | _ => none
      | _ => none

end

/-- Model of `JSON.parse(s)`: parse one value and require only whitespace
to remain; `none` models a thrown `SyntaxError`.  The fuel bounds the
recursion depth and is generous enough for the whole input. -/
def jsonParse (s : String) : Option Json :=
  match parseVal (2 * s.data.length + 4) s.data with
  | some (v, rest) => if skipWs rest = [] then some v else none
  | none => none

/-- Model of the JavaScript builtin `parseFloat`, used by
`getTerminalCoords` for `bus` terminals: skip leading whitespace, optional
sign, longest prefix of the form `digits [. digits] [exponent]` (at least
one digit required; an `e`/`E` without following digits is not part of the
literal); trailing characters are ignored.  A result of `NaN` (no numeric
prefix at all) is modelled as `none`; `Infinity` literals are outside the
scope of the claims and also map to `none`. -/
def jsParseFloat (s : String) : Option Rat :=
  let cs := skipWs s.data
  let sp : Bool × List Char :=
    match cs with
    | '-' :: r => (true, r)
    | '+' :: r => (false, r)
    | _ => (false, cs)
  match takeDigits sp.2 with
  | (ip, rest) =>
    let fp : List Char × List Char :=
      match rest with
      | '.' :: r => takeDigits r
      | _ => ([], rest)
    if ip = [] ∧ fp.1 = [] then none
    else
      let expPart : Bool × Nat :=
        match fp.2 with
        | c :: r =>
          if c = 'e' ∨ c = 'E' then
            match r with
            | '-' :: r2 =>
              (match takeDigits r2 with
               | ([], _) => (false, 0)
               | (ds, _) => (true, digitsToNat ds))
            | '+' :: r2 =>
              (match takeDigits r2 with
               | ([], _) => (false, 0)
               | (ds, _) => (false, digitsToNat ds))
            | _ =>
              (match takeDigits r with
               | ([], _) => (false, 0)
               | (ds, _) => (false, digitsToNat ds))
          else (false, 0)
        | [] => (false, 0)
      some (ratFromParts sp.1 (digitsToNat ip) fp.1 expPart.1 expPart.2)

/-- Model of the JavaScript `s.split(sep)` for a single-character
separator: the list of (possibly empty) chunks between separators; always
nonempty. -/
def splitCh (sep : Char) : List Char → List (List Char)
  | [] => [[]]
  | c :: cs =>
    if c = sep then [] :: splitCh sep cs
    else
      match splitCh sep cs with
      | [] => [[c]]
      | p :: ps => (c :: p) :: ps

/-- The destructuring `const [id, terminal] = ref.split('.')` of
`renderDiagram`: the first chunk is the component id, the second chunk (if
any) the terminal name; chunks after the second are ignored, and a missing
second chunk is JavaScript `undefined`, modelled as `none`. -/
def splitRef (s : String) : String × Option String :=
  match splitCh '.' s.data with
  | [] => ("", none)
  | p :: rest => (String.mk p, (rest.head?).map String.mk)

/-- Whether `p` is a prefix of `l` (Boolean, by direct recursion). -/
def listStartsWith : List Char → List Char → Bool
  | [], _ => true
  | _ :: _, [] => false
  | p :: ps, c :: cs => p = c && listStartsWith ps cs

/-- Index of the first occurrence of `pat` in `l`, if any. -/
def findSub (pat : List Char) : List Char → Option Nat
  | [] => if listStartsWith pat [] then some 0 else none
  | c :: cs =>
    if listStartsWith pat (c :: cs) then some 0
    else (findSub pat cs).map (fun n => n + 1)

/-- The opening delimiter matched by the source regular expression
/```json\n([\s\S]*?)\n```/ (backticks written as \x60). -/
def fencedOpen : List Char := "\x60\x60\x60json\n".data

/-- The closing delimiter matched by the source regular expression. -/
def fencedClose : List Char := "\n\x60\x60\x60".data

/-- Model of `fullResponse.match(/```json\n([\s\S]*?)\n```/)`: the capture
group of the leftmost match with the lazy (shortest) body.  The leftmost
match starts at the first occurrence of the opening delimiter — if that
occurrence has no closing delimiter after it, no later occurrence has one
either, so the whole match fails, exactly as for the regex. -/
def fencedExtract (s : String) : Option String :=
  match findSub fencedOpen s.data with
  | none => none
  | some i =>
    match findSub fencedClose (s.data.drop (i + fencedOpen.length)) with
    | none => none
    | some j => some (String.mk ((s.data.drop (i + fencedOpen.length)).take j))

/-- The three outcomes of the post-stream classification in
`handleFormSubmit`: leave the streamed text in place (`PlainText`), call
`handleImageGeneration` with `parsedJson.prompt` (`ImageDirective`), or
call `renderDiagram` with the parsed value (`Diagram`). -/
inductive ClassifyResult where
  | PlainText (text : String)
  | ImageDirective (prompt : Json)
  | Diagram (data : Json)

/-- The truthiness test `parsedJson.action === 'generate_image' &&
parsedJson.prompt` of `handleFormSubmit`. -/
def imageCheck (v : Json) : Bool :=
  (match jsField v ("action") with
   | some (Json.str a) => a = "generate_image"
   | _ => false)
  && (match jsField v ("prompt") with
      | some p => jsTruthy p
      | none => false)

/-- The duck-typed test `parsedJson.components && parsedJson.connections`
of `handleFormSubmit`. -/
def diagramCheck (v : Json) : Bool :=
  (match jsField v ("components") with
   | some f => jsTruthy f
   | none => false)
  && (match jsField v ("connections") with
      | some f => jsTruthy f
      | none => false)

/-- The `if (parsedJson) { … }` block of `handleFormSubmit`, applied to a
truthy-or-not parsed value: image directive first, then diagram, else the
original streamed text stays rendered. -/
def classifyTruthy (orig : String) (v : Json) : ClassifyResult :=
  if jsTruthy v then
    if imageCheck v then ClassifyResult.ImageDirective ((jsField v ("prompt")).getD Json.null)
    else if diagramCheck v then ClassifyResult.Diagram v
    else ClassifyResult.PlainText orig
  else ClassifyResult.PlainText orig

/-- Lifts `classifyTruthy` over an optional parse result: when no value
was parsed the streamed text stays in place. -/
def classifyParsed (orig : String) : Option Json → ClassifyResult
  | none => ClassifyResult.PlainText orig
  | some v => classifyTruthy orig v

/-- The fenced-block branch of `handleFormSubmit` (the `catch` of the
whole-buffer parse): extract the capture group; `if (jsonMatch &&
jsonMatch[1])` skips an empty capture, then the capture is parsed. -/
def fencedParse (s : String) : Option Json :=
  match fencedExtract s with
  | none => none
  | some inner => if inner = "" then none else jsonParse inner

/-- The response classification of `handleFormSubmit` after the stream
completes: try `JSON.parse` on the whole buffer; on failure try the fenced
block; then dispatch on the parsed value (or keep the streamed text). -/
def classify (s : String) : ClassifyResult :=
  match jsonParse s with
  | some v => classifyParsed s (some v)
  | none => classifyParsed s (fencedParse s)

/-- `getTerminalCoords` of `src/index.tsx`: absolute coordinates of a
component's terminal.  The `terminal` argument is `none` when the
connection reference had no `.`-separated terminal part (JavaScript
`undefined`; `parseFloat(undefined)` is `NaN`, hence `Option.bind`). -/
def getTerminalCoords (component : Option DiagramComponent) (terminal : Option String) :
    Option Point :=
  match component with
  | none => none
  | some c =>
    match c.type with
    | ComponentType.battery =>
      if terminal = some ("positive") then some ⟨c.x, qSub c.y 20⟩ else some ⟨c.x, qAdd c.y 20⟩
    | ComponentType.resistor =>
      if terminal = some ("in") then some ⟨qSub c.x 30, c.y⟩ else some ⟨qAdd c.x 30, c.y⟩
    | ComponentType.led =>
      if terminal = some ("anode") then some ⟨qSub c.x 25, c.y⟩ else some ⟨qAdd c.x 25, c.y⟩
    | ComponentType.switch =>
      if terminal = some ("in") then some ⟨qSub c.x 30, c.y⟩ else some ⟨qAdd c.x 30, c.y⟩
    | ComponentType.generator => some ⟨c.x, qAdd c.y 30⟩
    | ComponentType.transformer =>
      if terminal = some ("primary") then some ⟨c.x, qSub c.y 30⟩ else some ⟨c.x, qAdd c.y 30⟩
    | ComponentType.bus =>
      match terminal.bind jsParseFloat with
      | some off => some ⟨qAdd c.x off, c.y⟩
      | none => some ⟨c.x, c.y⟩
    | ComponentType.breaker =>
      if terminal = some ("in") then some ⟨qSub c.x 25, c.y⟩ else some ⟨qAdd c.x 25, c.y⟩
    | ComponentType.load => some ⟨c.x, qSub c.y 25⟩

/-- Vector primitives emitted by the drawing functions of `src/index.tsx`
(the `innerHTML` fragments), with coordinates local to the component.
`lineRot` is a line carrying a `rotate(angle cx cy)` transform;
`transformGroup` is a nested `<g>` with a `translate` and a `rotate`. -/
inductive SvgPrim where
  | line (x1 y1 x2 y2 : Rat)
  | lineRot (x1 y1 x2 y2 angle cx cy : Rat)
  | circle (cx cy r : Rat)
  | rect (x y w h : Rat)
  | path (d : String)
  | text (x y : Rat) (fontSize content : String)
  | transformGroup (tx ty rot : Rat) (children : List SvgPrim)

/-- `drawBattery` of `src/index.tsx`. -/
def drawBattery : List SvgPrim :=
  [SvgPrim.line 0 (qNeg 20) 0 20,
   SvgPrim.line (qNeg 15) (qNeg 10) 15 (qNeg 10),
   SvgPrim.line (qNeg 10) 10 10 10,
   SvgPrim.text (qNeg 25) (qNeg 8) ("16px") ("+"),
   SvgPrim.text (qNeg 20) 15 ("20px") ("-")]

/-- `drawResistor` of `src/index.tsx`. -/
def drawResistor : List SvgPrim :=
  [SvgPrim.line (qNeg 30) 0 (qNeg 20) 0,
   SvgPrim.path ("M -20 0 l 5 -10 l 10 20 l 10 -20 l 10 20 l 10 -20 l 5 10"),
   SvgPrim.line 20 0 30 0]

/-- `drawLed` of `src/index.tsx`. -/
def drawLed : List SvgPrim :=
  [SvgPrim.line (qNeg 25) 0 0 0,
   SvgPrim.line 25 0 0 0,
   SvgPrim.path ("M 0 -15 l 25 15 l -25 15 z"),
   SvgPrim.line (qNeg 5) 15 25 15,
   SvgPrim.transformGroup 5 (qNeg 20) (qNeg 45)
     [SvgPrim.path ("M 0 0 l 5 5 l -5 5"), SvgPrim.path ("M 5 0 l 5 5 l -5 5")]]

/-- `drawSwitch` of `src/index.tsx`: the moving contact arm is the last
line, rotated by `-30` when the state is `open` and by `0` when `closed`,
pivoted at `(-5, 0)`.  The TypeScript default parameter `state = 'open'`
is applied at the call site in `renderDiagram` (`Option.getD`). -/
def drawSwitch (state : SwitchState) : List SvgPrim :=
  let rotation : Rat := match state with
    | SwitchState.open_ => qNeg 30
    | SwitchState.closed => 0
  [SvgPrim.line (qNeg 30) 0 (qNeg 5) 0,
   SvgPrim.line 30 0 5 0,
   SvgPrim.circle (qNeg 5) 0 3,
   SvgPrim.circle 5 0 3,
   SvgPrim.lineRot (qNeg 5) 0 25 0 rotation (qNeg 5) 0]

/-- `drawGenerator` of `src/index.tsx`. -/
def drawGenerator : List SvgPrim :=
  [SvgPrim.circle 0 0 20,
   SvgPrim.path ("M -13 0 Q -6.5 -15 0 0 T 13 0"),
   SvgPrim.line 0 20 0 30]

/-- `drawTransformer` of `src/index.tsx`. -/
def drawTransformer : List SvgPrim :=
  [SvgPrim.circle 0 (qNeg 8) 12,
   SvgPrim.circle 0 8 12,
   SvgPrim.line 0 (qNeg 20) 0 (qNeg 30),
   SvgPrim.line 0 20 0 30]

/-- `drawBus` of `src/index.tsx`: a horizontal bar from `-width/2` to
`width/2`.  The TypeScript default parameter `width = 100` is applied at
the call site in `renderDiagram` (`Option.getD`). -/
def drawBus (width : Rat) : List SvgPrim :=
  [SvgPrim.line (qNeg (qHalf width)) 0 (qHalf width) 0]

/-- `drawCircuitBreaker` of `src/index.tsx`. -/
def drawCircuitBreaker : List SvgPrim :=
  [SvgPrim.rect (qNeg 8) (qNeg 8) 16 16,
   SvgPrim.line (qNeg 25) 0 (qNeg 8) 0,
   SvgPrim.line 25 0 8 0]

/-- `drawLoad` of `src/index.tsx`. -/
def drawLoad : List SvgPrim :=
  [SvgPrim.line 0 (qNeg 25) 0 0,
   SvgPrim.path ("M 0 0 L -10 10 L 0 5 L 10 10 Z")]

/-- The `switch (component.type)` dispatch of `renderDiagram`, including
the TypeScript default-parameter values for `state` and `width`.  The
`ComponentType` union is closed, so every component gets a symbol. -/
def symbolFor (c : DiagramComponent) : List SvgPrim :=
  match c.type with
  | ComponentType.battery => drawBattery
  | ComponentType.resistor => drawResistor
  | ComponentType.led => drawLed
  | ComponentType.switch => drawSwitch (c.state.getD SwitchState.open_)
  | ComponentType.generator => drawGenerator
  | ComponentType.transformer => drawTransformer
  | ComponentType.bus => drawBus (c.width.getD 100)
  | ComponentType.breaker => drawCircuitBreaker
  | ComponentType.load => drawLoad

/-- One child of the output `<svg>`: either a connection wire `<line>` or
a component `<g transform="translate(x,y)">` holding the symbol and the
`<text>` label placed at local `(0, 45)`. -/
inductive CanvasElem where
  | wire (x1 y1 x2 y2 : Rat)
  | componentGroup (tx ty : Rat) (symbol : List SvgPrim) (labelX labelY : Rat) (labelText : String)

/-- The output `<svg>` of `renderDiagram`: the `viewBox` extents, the
`single-line-diagram` class flag, and the children in document (= draw)
order. -/
structure Canvas where
  width : Rat
  height : Rat
  singleLine : Bool
  elems : List CanvasElem

/-- The `new Map(data.components.map(c => [c.id, c]))` lookup of
`renderDiagram`; with duplicate ids a JavaScript `Map` keeps the last
entry, hence the left fold. -/
def componentMapGet (cs : List DiagramComponent) (id : String) : Option DiagramComponent :=
  cs.foldl (fun acc c => if c.id = id then some c else acc) none

/-- Resolution of both endpoints of one connection, as in the wire loop of
`renderDiagram`: split each reference at `.`, look the component up, get
the terminal coordinates; `none` when either endpoint fails
(`if (fromCoords && toCoords)`). -/
def connEndpoints (cs : List DiagramComponent) (conn : DiagramConnection) :
    Option (Point × Point) :=
  let fromRef := splitRef conn.from_
  let toRef := splitRef conn.to_
  match getTerminalCoords (componentMapGet cs fromRef.1) fromRef.2,
        getTerminalCoords (componentMapGet cs toRef.1) toRef.2 with
  | some f, some t => some (f, t)
  | _, _ => none

/-- `renderDiagram` of `src/index.tsx`: the wires of all fully-resolved
connections, in declared order, followed by one group per component, in
declared order (wires are appended to the `<svg>` strictly before any
component group). -/
def renderDiagram (data : DiagramData) : Canvas :=
  let wires := data.connections.filterMap (fun conn =>
    (connEndpoints data.components conn).map (fun pq =>
      CanvasElem.wire pq.1.x pq.1.y pq.2.x pq.2.y))
  let groups := data.components.map (fun c =>
    CanvasElem.componentGroup c.x c.y (symbolFor c) 0 45 c.label)
  ⟨data.width, data.height,
   (match data.diagramType with
    | some DiagramKind.singleLine => true
    | _ => false),
   wires ++ groups⟩

/-- Whether a canvas element is a connection wire. -/
def isWireElem : CanvasElem → Bool
  | CanvasElem.wire _ _ _ _ => true
  | _ => false

/-- Whether a canvas element is a component group. -/
def isGroupElem : CanvasElem → Bool
  | CanvasElem.componentGroup _ _ _ _ _ _ => true
  | _ => false

/-- Number of wire segments in a canvas. -/
def wireCount (cv : Canvas) : Nat := (cv.elems.filter isWireElem).length

/-- Number of component groups in a canvas. -/
def groupCount (cv : Canvas) : Nat := (cv.elems.filter isGroupElem).length

/-- Rotation angle of the switch's moving contact arm: the angle of the
first rotated line in a symbol. -/
def armRotation : List SvgPrim → Option Rat
  | [] => none
  | SvgPrim.lineRot _ _ _ _ angle _ _ :: _ => some angle
  | _ :: rest => armRotation rest

/-- Modelled from the spec, §4.1: the per-kind table of named terminals
and their local offsets (the "(default)" entries are in
`specDefaultOffset`).  Used only to state the claims about terminal
resolution; the implementation-side function is `getTerminalCoords`. -/
def specTerminalOffsets : ComponentType → List (String × Rat × Rat)
  | ComponentType.battery => [("positive", (0, -20)), ("negative", (0, 20))]
  | ComponentType.resistor => [("in", (-30, 0)), ("out", (30, 0))]
  | ComponentType.led => [("anode", (-25, 0)), ("cathode", (25, 0))]
  | ComponentType.switch => [("in", (-30, 0)), ("out", (30, 0))]
  | ComponentType.generator => []
  | ComponentType.transformer => [("primary", (0, -30)), ("secondary", (0, 30))]
  | ComponentType.bus => []
  | ComponentType.breaker => [("in", (-25, 0)), ("out", (25, 0))]
  | ComponentType.load => []

/-- Modelled from the spec, §4.1: the "(default)" column of the terminal
table — the local offset used when a terminal name does not match (and for
the single implicit terminal of `generator` / `load`, and a `bus` whose
terminal does not parse as a number). -/
def specDefaultOffset : ComponentType → Rat × Rat
  | ComponentType.battery => (0, 20)
  | ComponentType.resistor => (30, 0)
  | ComponentType.led => (25, 0)
  | ComponentType.switch => (30, 0)
  | ComponentType.generator => (0, 30)
  | ComponentType.transformer => (0, 30)
  | ComponentType.bus => (0, 0)
  | ComponentType.breaker => (25, 0)
  | ComponentType.load => (0, -25)

/-- Modelled from the spec, §4.1: the set of fixed symbolic terminal names
the table lists for a kind (a `bus` has none — its terminals are numeric
offsets; `generator` and `load` have a single implicit terminal with no
name). -/
def specRecognizedNames (k : ComponentType) : List String :=
  (specTerminalOffsets k).map (fun e => e.1)

/-- First table entry with the given name, if any. -/
def specLookup (name : String) : List (String × Rat × Rat) → Option (Rat × Rat)
  | [] => none
  | e :: rest => if e.1 = name then some e.2 else specLookup name rest

/-- Modelled from the spec, §4.2: `resolve(component, terminalName)` — a
named entry resolves to position + offset; for `bus` the name is parsed as
a float (offset `0` on failure); any other unmatched name falls back to
the kind's default offset; `null` exactly when the component is missing. -/
def specResolve (copt : Option DiagramComponent) (t : Option String) : Option Point :=
  match copt with
  | none => none
  | some c =>
    match c.type with
    | ComponentType.bus =>
      match t.bind jsParseFloat with
      | some off => some ⟨c.x + off, c.y⟩
      | none => some ⟨c.x + 0, c.y + 0⟩
    | k =>
      match t.bind (fun name => specLookup name (specTerminalOffsets k)) with
      | some off => some ⟨c.x + off.1, c.y + off.2⟩
      | none => some ⟨c.x + (specDefaultOffset k).1, c.y + (specDefaultOffset k).2⟩

/-- Modelled from the spec, §4.1/"(default)" column: the absolute default
terminal point of a component (spec vocabulary for claims C1 and C10). -/
def defaultTerminalPoint (c : DiagramComponent) : Point :=
  ⟨c.x + (specDefaultOffset c.type).1, c.y + (specDefaultOffset c.type).2⟩

/-- The fallback the code actually implements for a terminal name that is
not in the table: parse-as-float for `bus`, the kind's default terminal
for every other kind (claim C1, amended). -/
def fallbackPoint (c : DiagramComponent) (t : String) : Point :=
  match c.type with
  | ComponentType.bus =>
    match jsParseFloat t with
    | some q => ⟨c.x + q, c.y⟩
    | none => ⟨c.x, c.y⟩
  | _ => defaultTerminalPoint c

/-- A battery component at the origin (sample data for the claims). -/
def batZero : DiagramComponent := ⟨"b1", ComponentType.battery, 0, 0, "V1", none, none⟩

/-- A bus component at `x = 100` (sample data for claim C7). -/
def busSample : DiagramComponent := ⟨"bus1", ComponentType.bus, 100, 20, "B", none, none⟩

/-- A switch with `state` absent (sample data for claim C9). -/
def swSample : DiagramComponent := ⟨"s1", ComponentType.switch, 10, 10, "S", none, none⟩

/-- A one-battery diagram with one dangling connection (to the
nonexistent id `ghost`) and one fully-resolving connection (sample data
for claims C6 and C8). -/
def diagSample : DiagramData :=
  ⟨none, 200, 100,
   [⟨"b1", ComponentType.battery, 10, 20, "V1", none, none⟩],
   [⟨"b1.positive", "ghost.in"⟩, ⟨"b1.positive", "b1.negative"⟩]⟩

/-- The dangling connection of `diagSample`. -/
def danglingConn : DiagramConnection := ⟨"b1.positive", "ghost.in"⟩

/-- Concrete scenario 1 of the spec: a bare image directive. -/
def redBarnInput : String :=
  "\x7b\"action\":\"generate_image\",\"prompt\":\"a red barn\"\x7d"

/-- An image directive whose `prompt` is the empty string (counterexample
input for claim C5). -/
def emptyPromptInput : String :=
  "\x7b\"action\":\"generate_image\",\"prompt\":\"\"\x7d"

/-- A buffer whose fenced delimiters are not alone on their lines: text
before the opening \x60\x60\x60json and after the closing \x60\x60\x60
(counterexample input for claim C4). -/
def c4Input : String :=
  "x\x60\x60\x60json\n\x7b\"action\":\"generate_image\",\"prompt\":\"p\"\x7d\n\x60\x60\x60y"

/-- `qAdd` agrees with rational addition. -/
theorem qAdd_eq (a b : Rat) : qAdd a b = a + b := by
  have ha : (a.den : Int) ≠ 0 := Int.ofNat_ne_zero.mpr a.den_nz
  have hb : (b.den : Int) ≠ 0 := Int.ofNat_ne_zero.mpr b.den_nz
  conv_rhs => rw [← Rat.num_divInt_den a, ← Rat.num_divInt_den b,
    Rat.divInt_add_divInt _ _ ha hb]
  rw [qAdd, Rat.mkRat_eq_divInt]
  push_cast
  ring_nf

/-- `qNeg` agrees with rational negation. -/
theorem qNeg_eq (a : Rat) : qNeg a = -a := by
  rw [qNeg, Rat.mkRat_eq_divInt, Rat.neg_def]

/-- `qSub` agrees with rational subtraction. -/
theorem qSub_eq (a b : Rat) : qSub a b = a - b := by
  rw [qSub, qAdd_eq, qNeg_eq, sub_eq_add_neg]

/-- `qHalf` agrees with division by two. -/
theorem qHalf_eq (a : Rat) : qHalf a = a / 2 := by
  rw [qHalf, Rat.mkRat_eq_div]
  push_cast
  rw [mul_comm, ← div_div, Rat.num_div_den]

/-- A filter that accepts every element of a list is the identity. -/
theorem listFilterAll {α : Type} (p : α → Bool) :
    ∀ l : List α, (∀ e ∈ l, p e = true) → l.filter p = l := by
  intro l h
  induction l with
  | nil => rfl
  | cons a t ih =>
    have ha := h a (by simp)
    simp only [List.filter_cons, ha, if_true]
    rw [ih (fun e he => h e (by simp [he]))]

/-- A filter that rejects every element of a list gives the empty list. -/
theorem listFilterNone {α : Type} (p : α → Bool) :
    ∀ l : List α, (∀ e ∈ l, p e = false) → l.filter p = [] := by
  intro l h
  induction l with
  | nil => rfl
  | cons a t ih =>
    have ha := h a (by simp)
    simp only [List.filter_cons, ha]
    exact ih (fun e he => h e (by simp [he]))

/-- `filterMap` keeps exactly the elements on which the function is
`some`. -/
theorem lengthFilterMap {α β : Type} (f : α → Option β) :
    ∀ l : List α, (l.filterMap f).length = (l.filter (fun a => (f a).isSome)).length := by
  intro l
  induction l with
  | nil => rfl
  | cons a t ih =>
    cases h : f a <;>
      simp [List.filterMap_cons, List.filter_cons, h, ih]

/-- `listStartsWith` characterises list prefixes. -/
theorem listStartsWith_iff (p : List Char) :
    ∀ l : List Char, listStartsWith p l = true ↔ ∃ post, l = p ++ post := by
  induction p with
  | nil =>
    intro l
    constructor
    · intro _; exact ⟨l, rfl⟩
    · intro _; rfl
  | cons x xs ih =>
    intro l
    cases l with
    | nil =>
      constructor
      · intro h; exact absurd h (by simp [listStartsWith])
      · rintro ⟨post, h⟩; exact absurd h (by simp)
    | cons c cs =>
      constructor
      · intro h
        have hx : x = c ∧ listStartsWith xs cs = true := by
          simpa [listStartsWith, Bool.and_eq_true, decide_eq_true_eq] using h
        obtain ⟨post, hpost⟩ := (ih cs).mp hx.2
        exact ⟨post, by simp [hx.1, hpost]⟩
      · rintro ⟨post, hpost⟩
        injection hpost with h1 h2
        subst h1
        subst h2
        simp [listStartsWith, (ih (xs ++ post)).mpr ⟨post, rfl⟩]

/-- A successful `findSub` exhibits the pattern as a substring, with the
stated number of characters before it. -/
theorem findSub_some (pat : List Char) :
    ∀ l : List Char, ∀ n : Nat, findSub pat l = some n →
      ∃ pre post, l = pre ++ pat ++ post ∧ pre.length = n := by
  intro l
  induction l with
  | nil =>
    intro n h
    by_cases hs : listStartsWith pat [] = true
    · obtain ⟨post, hpost⟩ := (listStartsWith_iff pat []).mp hs
      refine ⟨[], post, by simpa using hpost, ?_⟩
      have : n = 0 := by simpa [findSub, hs] using h.symm
      simp [this]
    · simp [findSub, hs] at h
  | cons c cs ih =>
    intro n h
    by_cases hs : listStartsWith pat (c :: cs) = true
    · obtain ⟨post, hpost⟩ := (listStartsWith_iff pat (c :: cs)).mp hs
      have hn : n = 0 := by simpa [findSub, hs] using h.symm
      exact ⟨[], post, by simpa using hpost, by simp [hn]⟩
    · have h' : (findSub pat cs).map (fun m => m + 1) = some n := by
        simpa [findSub, hs] using h
      cases hf : findSub pat cs with
      | none => rw [hf] at h'; exact absurd h' (by simp)
      | some m =>
        rw [hf] at h'
        have hnm : m + 1 = n := by simpa using h'
        obtain ⟨pre, post, hl, hlen⟩ := ih m hf
        exact ⟨c :: pre, post, by simp [hl], by simp [hlen, hnm]⟩

/-- Splitting a list without the separator gives the single whole chunk. -/
theorem splitCh_no_sep (sep : Char) :
    ∀ l : List Char, sep ∉ l → splitCh sep l = [l] := by
  intro l h
  induction l with
  | nil => rfl
  | cons c cs ih =>
    have hc : ¬ c = sep := fun hh => h (by simp [hh])
    have hcs : sep ∉ cs := fun hh => h (by simp [hh])
    simp [splitCh, hc, ih hcs]

/-- Splitting a list whose head chunk is separator-free peels that chunk. -/
theorem splitCh_sep_append (sep : Char) :
    ∀ xs ys : List Char, sep ∉ xs →
      splitCh sep (xs ++ sep :: ys) = xs :: splitCh sep ys := by
  intro xs
  induction xs with
  | nil => intro ys _; simp [splitCh]
  | cons x xt ih =>
    intro ys h
    have hx : ¬ x = sep := fun hh => h (by simp [hh])
    have hxt : sep ∉ xt := fun hh => h (by simp [hh])
    simp only [List.cons_append, splitCh, hx, if_false, List.append_eq, ih ys hxt]

/-- Rebuilding a string from its character data is the identity. -/
theorem stringMkData : ∀ s : String, String.mk s.data = s := by
  intro s
  cases s
  rfl

/-- Sanity check: `ratFromParts` computes the textbook decimal value
`± (ip + 0.fds) · 10^(±ev)`. -/
theorem ratFromParts_eq (neg : Bool) (ip : Nat) (fds : List Char) (expNeg : Bool) (ev : Nat) :
    ratFromParts neg ip fds expNeg ev =
      (if neg then (-1 : Rat) else 1) * ((ip : Rat) + (digitsToNat fds : Rat) / 10 ^ fds.length)
        * (if expNeg then 1 / 10 ^ ev else 10 ^ ev) := by
  unfold ratFromParts
  cases neg <;> cases expNeg <;>
    simp only [if_true, if_false, Bool.false_eq_true, Rat.mkRat_eq_div] <;>
    push_cast <;>
    field_simp <;>
    (try ring) <;>
    (try exact Or.inl trivial)

/-- Claim C1, counterexample: `zzz` is not a recognized battery terminal
name, yet `getTerminalCoords` on an existing battery at the origin returns
the position `(0, 20)` (the default `negative` terminal), not `null` — the
connection is not skipped, contradicting the claim that unrecognized names
resolve to `null`. -/
theorem c1_counterexample :
    (specRecognizedNames ComponentType.battery).contains ("zzz") = false ∧
    getTerminalCoords (some batZero) (some ("zzz")) = some ⟨0, 20⟩ :=
  ⟨by decide, by decide⟩

/-- Claim C1, amended: for a component of any of the nine declared kinds,
`getTerminalCoords` returns `none` only when the component itself is
missing; a terminal name that is not recognized for the kind does not
yield `null` but falls back — a `bus` parses the name as a number (offset
`0` on failure), every other kind returns its default terminal. -/
theorem c1_amended_resolver_falls_back :
    (∀ t : Option String, getTerminalCoords none t = none) ∧
    (∀ (c : DiagramComponent) (t : String), t ∉ specRecognizedNames c.type →
      getTerminalCoords (some c) (some t) = some (fallbackPoint c t)) := by
  refine ⟨fun t => rfl, ?_⟩
  intro c t ht
  obtain ⟨id, ty, x, y, lb, st, w⟩ := c
  cases ty <;>
    simp only [specRecognizedNames, specTerminalOffsets, List.map, List.mem_cons,
      List.not_mem_nil, not_or] at ht <;>
    cases hjs : jsParseFloat t <;>
    simp [getTerminalCoords, fallbackPoint, defaultTerminalPoint, specDefaultOffset,
      qAdd_eq, qSub_eq, sub_eq_add_neg, ht, hjs]

/-- Claim C1, witness for the amended statement: the unrecognized name
`foo` on an existing battery resolves to the default terminal `(0, 20)`. -/
theorem c1_witness :
    getTerminalCoords (some batZero) (some ("foo")) = some ⟨0, 20⟩ :=
  (c1_amended_resolver_falls_back.2 batZero ("foo") (by decide)).trans
    (by norm_num [fallbackPoint, defaultTerminalPoint, specDefaultOffset, batZero])

/-- Claim C2: for every existing component the resolver returns a
non-null point, following the §4.1 table — named entries resolve to
position + tabulated offset, unmatched names fall back to the kind's
default terminal (`bus`: numeric parse, offset `0` on failure) — and
`null` is returned exactly when the component does not exist
(`getTerminalCoords` refines `specResolve`, the resolver transcribed from
the spec's words). -/
theorem c2_resolver_matches_spec_table :
    (∀ (copt : Option DiagramComponent) (t : Option String),
      getTerminalCoords copt t = specResolve copt t) ∧
    (∀ (c : DiagramComponent) (t : Option String),
      (getTerminalCoords (some c) t).isSome = true) ∧
    (∀ t : Option String, getTerminalCoords none t = none) := by
  refine ⟨?_, ?_, fun t => rfl⟩
  · intro copt t
    cases copt with
    | none => rfl
    | some c =>
      obtain ⟨id, ty, x, y, lb, st, w⟩ := c
      cases ty <;> cases t <;>
        simp [getTerminalCoords, specResolve, specTerminalOffsets, specDefaultOffset,
          specLookup, qAdd_eq, qSub_eq, sub_eq_add_neg, Option.bind] <;>
        try (rename_i name; split_ifs <;> simp_all)
  · intro c t
    obtain ⟨id, ty, x, y, lb, st, w⟩ := c
    cases ty <;> cases t <;>
      simp only [getTerminalCoords, Option.bind] <;>
      first
        | rfl
        | (split_ifs <;> rfl)
        | (rename_i name; cases hjs : jsParseFloat name <;> simp [hjs])

/-- Claim C3: when neither the whole buffer nor the fenced-block capture
parses as JSON, classification is `PlainText` carrying the original buffer
unchanged. -/
theorem c3_plaintext_fallback_exact :
    ∀ s : String, jsonParse s = none →
      (∀ inner : String, fencedExtract s = some inner → jsonParse inner = none) →
      classify s = ClassifyResult.PlainText s := by
  intro s h1 h2
  unfold classify
  rw [h1]
  cases hf : fencedExtract s with
  | none => simp [classifyParsed, fencedParse, hf]
  | some inner =>
    by_cases hi : inner = ""
    · simp [classifyParsed, fencedParse, hf, hi]
    · simp [classifyParsed, fencedParse, hf, hi, h2 inner hf]

/-- Claim C3, witness: a plain prose buffer classifies as `PlainText` of
itself. -/
theorem c3_witness : classify ("hello") = ClassifyResult.PlainText ("hello") :=
  c3_plaintext_fallback_exact ("hello") rfl
    (by intro inner h
        rw [show fencedExtract ("hello") = none from rfl] at h
        exact Option.noConfusion h)

/-- Claim C4, counterexample: in `c4Input` no line consists solely of
the three-backtick-`json` opener and no line consists solely of three
backticks, yet the classifier extracts and parses the fenced body and
returns an `ImageDirective` — the delimiters are substring matches of the
regex, not whole-line matches, contradicting the claim. -/
theorem c4_counterexample :
    (jsonParse c4Input).isNone = true ∧
    (splitCh '\n' c4Input.data).contains ("\x60\x60\x60json".data) = false ∧
    (splitCh '\n' c4Input.data).contains ("\x60\x60\x60".data) = false ∧
    classify c4Input = ClassifyResult.ImageDirective (Json.str ("p")) :=
  ⟨by decide, by decide, by decide, rfl⟩

/-- Claim C4, amended: fenced extraction is attempted only when the
whole-buffer parse fails (conjuncts 1–2), and a successful extraction
means the buffer contains, anywhere — not necessarily as whole lines —
the opening delimiter, then exactly the captured text, then the closing
delimiter (conjunct 3). -/
theorem c4_amended_fenced_extraction :
    (∀ (s : String) (v : Json), jsonParse s = some v → classify s = classifyTruthy s v) ∧
    (∀ s : String, jsonParse s = none → classify s = classifyParsed s (fencedParse s)) ∧
    (∀ s inner : String, fencedExtract s = some inner →
      ∃ pre post, s.data = pre ++ fencedOpen ++ inner.data ++ fencedClose ++ post) := by
  refine ⟨?_, ?_, ?_⟩
  · intro s v h
    unfold classify
    rw [h]
    rfl
  · intro s h
    unfold classify
    rw [h]
  · intro s inner h
    unfold fencedExtract at h
    cases h1 : findSub fencedOpen s.data with
    | none => simp only [h1] at h; exact Option.noConfusion h
    | some i =>
      simp only [h1] at h
      cases h2 : findSub fencedClose (s.data.drop (i + fencedOpen.length)) with
      | none => simp only [h2] at h; exact Option.noConfusion h
      | some j =>
        simp only [h2, Option.some.injEq] at h
        obtain ⟨pre1, post1, hs1, hl1⟩ := findSub_some _ _ _ h1
        obtain ⟨pre2, post2, hs2, hl2⟩ := findSub_some _ _ _ h2
        have hdrop : s.data.drop (i + fencedOpen.length) = post1 := by
          rw [hs1, ← hl1, ← List.length_append, List.drop_left]
        rw [hdrop] at hs2
        have htake : post1.take j = pre2 := by
          rw [hs2, List.append_assoc, ← hl2, List.take_left]
        have hinner : inner.data = pre2 := by
          rw [hdrop, htake] at h
          rw [← h]
        refine ⟨pre1, post2, ?_⟩
        rw [hinner, hs1, hs2]
        simp [List.append_assoc]

/-- Claim C4, witness for the amended statement: a whole-buffer JSON
number bypasses fencing, and the fenced capture of `c4Input` sits between
the two delimiters inside the buffer. -/
theorem c4_witness :
    classify ("42") = classifyTruthy ("42") (Json.num 42) ∧
    (∃ pre post, c4Input.data = pre ++ fencedOpen ++
      ("\x7b\"action\":\"generate_image\",\"prompt\":\"p\"\x7d").data ++ fencedClose ++ post) :=
  ⟨c4_amended_fenced_extraction.1 ("42") (Json.num 42) rfl,
   c4_amended_fenced_extraction.2.2 c4Input
     ("\x7b\"action\":\"generate_image\",\"prompt\":\"p\"\x7d") (by decide)⟩

/-- Claim C5, counterexample: the buffer parses as a whole-buffer JSON
value of shape `action = "generate_image"`, `prompt` a string — the empty
string — yet classification is `PlainText`, not `ImageDirective`, because
the code tests the truthiness of `prompt` and the empty string is falsy. -/
theorem c5_counterexample :
    jsonParse emptyPromptInput =
      some (Json.obj [("action", Json.str ("generate_image")), ("prompt", Json.str (""))]) ∧
    classify emptyPromptInput = ClassifyResult.PlainText emptyPromptInput :=
  ⟨rfl, rfl⟩

/-- Claim C5, amended: a whole-buffer JSON value whose `action` field is
the string `generate_image` and whose `prompt` field is a *nonempty*
string classifies as `ImageDirective` carrying that prompt — regardless of
any other fields, so the image check precedes the diagram check. -/
theorem c5_amended_image_directive :
    ∀ (s : String) (v : Json) (p : String), jsonParse s = some v →
      jsField v ("action") = some (Json.str ("generate_image")) →
      jsField v ("prompt") = some (Json.str p) → p ≠ "" →
      classify s = ClassifyResult.ImageDirective (Json.str p) := by
  intro s v p h1 h2 h3 hp
  unfold classify
  rw [h1]
  have htr : jsTruthy v = true := by
    cases v <;> simp_all [jsField, jsTruthy]
  have himg : imageCheck v = true := by
    simp [imageCheck, h2, h3, jsTruthy, hp]
  simp [classifyParsed, classifyTruthy, htr, himg, h3]

/-- Claim C5, witness (concrete scenario 1 of the spec): the red-barn
image directive classifies as `ImageDirective` with its prompt. -/
theorem c5_witness :
    classify redBarnInput = ClassifyResult.ImageDirective (Json.str ("a red barn")) :=
  c5_amended_image_directive redBarnInput
    (Json.obj [("action", Json.str ("generate_image")), ("prompt", Json.str ("a red barn"))])
    ("a red barn") rfl rfl rfl (by decide)

/-- Claim C6: in a diagram with a connection that references a
nonexistent component id, rendering emits exactly one wire per connection
whose two endpoints both resolve (the dangling connection resolves to
nothing and is skipped — no partial line), and every component is still
rendered as a group. -/
theorem c6_dangling_reference_tolerance :
    ∀ (data : DiagramData) (c : DiagramConnection), c ∈ data.connections →
      (componentMapGet data.components (splitRef c.from_).1 = none ∨
       componentMapGet data.components (splitRef c.to_).1 = none) →
      wireCount (renderDiagram data) =
        (data.connections.filter
          (fun k => (connEndpoints data.components k).isSome)).length ∧
      (connEndpoints data.components c).isSome = false ∧
      groupCount (renderDiagram data) = data.components.length := by
  intro data c hmem hbad
  have hwires : ∀ e ∈ data.connections.filterMap (fun conn =>
      (connEndpoints data.components conn).map (fun pq =>
        CanvasElem.wire pq.1.x pq.1.y pq.2.x pq.2.y)), isWireElem e = true := by
    intro e he
    obtain ⟨conn, _, hfc⟩ := List.mem_filterMap.mp he
    cases hce : connEndpoints data.components conn with
    | none => rw [hce] at hfc; exact Option.noConfusion hfc
    | some pq =>
      rw [hce] at hfc
      simp only [Option.map_some', Option.some.injEq] at hfc
      rw [← hfc]
      rfl
  have hgroups : ∀ e ∈ data.components.map (fun cc =>
      CanvasElem.componentGroup cc.x cc.y (symbolFor cc) 0 45 cc.label),
      isGroupElem e = true := by
    intro e he
    obtain ⟨cc, _, hfc⟩ := List.mem_map.mp he
    rw [← hfc]
    rfl
  refine ⟨?_, ?_, ?_⟩
  · show (((data.connections.filterMap _) ++ (data.components.map _)).filter
      isWireElem).length = _
    rw [List.filter_append]
    rw [listFilterAll isWireElem _ hwires]
    rw [listFilterNone isWireElem _ (fun e he => by
      obtain ⟨cc, _, hfc⟩ := List.mem_map.mp he
      rw [← hfc]; rfl)]
    rw [List.append_nil, lengthFilterMap]
    congr 1
    apply List.filter_congr
    intro k _
    cases connEndpoints data.components k <;> rfl
  · rcases hbad with hb | hb
    · simp [connEndpoints, hb, getTerminalCoords]
    · cases hf : getTerminalCoords
        (componentMapGet data.components (splitRef c.from_).1) (splitRef c.from_).2 <;>
        simp [connEndpoints, hb, hf, getTerminalCoords]
  · show (((data.connections.filterMap _) ++ (data.components.map _)).filter
      isGroupElem).length = _
    rw [List.filter_append]
    rw [listFilterAll isGroupElem _ hgroups]
    rw [listFilterNone isGroupElem _ (fun e he => by
      obtain ⟨conn, _, hfc⟩ := List.mem_filterMap.mp he
      cases hce : connEndpoints data.components conn with
      | none => rw [hce] at hfc; exact Option.noConfusion hfc
      | some pq =>
        rw [hce] at hfc
        simp only [Option.map_some', Option.some.injEq] at hfc
        rw [← hfc]; rfl)]
    simp

/-- Claim C6, witness: `diagSample` has one dangling connection (to the
nonexistent id `ghost`) and one resolving connection; rendering emits
exactly one wire and one component group. -/
theorem c6_witness :
    wireCount (renderDiagram diagSample) = 1 ∧
    groupCount (renderDiagram diagSample) = 1 ∧
    (connEndpoints diagSample.components danglingConn).isSome = false := by
  have h := c6_dangling_reference_tolerance diagSample danglingConn
    (by decide) (Or.inr (by decide))
  exact ⟨h.1.trans (by decide), h.2.2.trans (by decide), h.2.1⟩

/-- Claim C7: on a `bus` component, a terminal string that parses as a
number `q` resolves to `(x + q, y)`, and a terminal string that does not
parse resolves to `(x, y)`. -/
theorem c7_bus_numeric_terminal :
    (∀ (c : DiagramComponent) (t : String) (q : Rat), c.type = ComponentType.bus →
      jsParseFloat t = some q →
      getTerminalCoords (some c) (some t) = some ⟨c.x + q, c.y⟩) ∧
    (∀ (c : DiagramComponent) (t : String), c.type = ComponentType.bus →
      jsParseFloat t = none →
      getTerminalCoords (some c) (some t) = some ⟨c.x, c.y⟩) := by
  constructor
  · intro c t q hty hjs
    obtain ⟨id, ty, x, y, lb, st, w⟩ := c
    subst hty
    simp [getTerminalCoords, hjs, qAdd_eq]
  · intro c t hty hjs
    obtain ⟨id, ty, x, y, lb, st, w⟩ := c
    subst hty
    simp [getTerminalCoords, hjs]

/-- Claim C7, witness (concrete scenario 3 of the spec): terminal `-40`
on a bus at `x = 100` resolves to `(60, y)`. -/
theorem c7_witness :
    jsParseFloat ("-40") = some (-40) ∧ busSample.x = 100 ∧
    getTerminalCoords (some busSample) (some ("-40")) = some ⟨60, 20⟩ :=
  ⟨by decide, by decide,
    (c7_bus_numeric_terminal.1 busSample ("-40") (-40) rfl (by decide)).trans
      (by norm_num [busSample])⟩

/-- Claim C8: for a diagram with at least one resolving connection and at
least one component, the canvas children split as a nonempty block of
wires followed by a nonempty block of component groups — every wire
precedes every component symbol in draw order. -/
theorem c8_draw_order_invariant :
    ∀ data : DiagramData,
      (∃ conn ∈ data.connections, (connEndpoints data.components conn).isSome = true) →
      data.components ≠ [] →
      ∃ ws gs, (renderDiagram data).elems = ws ++ gs ∧ ws ≠ [] ∧ gs ≠ [] ∧
        (∀ e ∈ ws, isWireElem e = true) ∧ (∀ e ∈ gs, isGroupElem e = true) := by
  intro data hconn hcomp
  refine ⟨data.connections.filterMap (fun conn =>
      (connEndpoints data.components conn).map (fun pq =>
        CanvasElem.wire pq.1.x pq.1.y pq.2.x pq.2.y)),
    data.components.map (fun cc =>
      CanvasElem.componentGroup cc.x cc.y (symbolFor cc) 0 45 cc.label),
    ?_, ?_, ?_, ?_, ?_⟩
  · rfl
  · obtain ⟨conn, hmem, hsome⟩ := hconn
    cases hce : connEndpoints data.components conn with
    | none => rw [hce] at hsome; exact Bool.noConfusion hsome
    | some pq =>
      exact List.ne_nil_of_mem (List.mem_filterMap.mpr
        ⟨conn, hmem, by rw [hce]; rfl⟩)
  · intro hm
    exact hcomp (by simpa using hm)
  · intro e he
    obtain ⟨conn, _, hfc⟩ := List.mem_filterMap.mp he
    cases hce : connEndpoints data.components conn with
    | none => rw [hce] at hfc; exact Option.noConfusion hfc
    | some pq =>
      rw [hce] at hfc
      simp only [Option.map_some', Option.some.injEq] at hfc
      rw [← hfc]
      rfl
  · intro e he
    obtain ⟨cc, _, hfc⟩ := List.mem_map.mp he
    rw [← hfc]
    rfl

/-- Claim C8, witness: on `diagSample` the canvas splits into a nonempty
wire block followed by a nonempty group block. -/
theorem c8_witness :
    ∃ ws gs, (renderDiagram diagSample).elems = ws ++ gs ∧ ws ≠ [] ∧ gs ≠ [] ∧
      (∀ e ∈ ws, isWireElem e = true) ∧ (∀ e ∈ gs, isGroupElem e = true) :=
  c8_draw_order_invariant diagSample
    ⟨⟨"b1.positive", "b1.negative"⟩, by decide, by decide⟩ (by decide)

/-- Claim C9: the switch's moving contact arm is rotated by `-30` when
the state is `open` and by `0` when `closed`; an absent state defaults to
`open`; the rotation is a function of the state alone (two renders with
equal state give equal rotation); and terminal resolution ignores the
state entirely, for every kind. -/
theorem c9_switch_rotation :
    armRotation (drawSwitch SwitchState.open_) = some (-30) ∧
    armRotation (drawSwitch SwitchState.closed) = some 0 ∧
    (∀ c : DiagramComponent, c.type = ComponentType.switch → c.state = none →
      symbolFor c = drawSwitch SwitchState.open_) ∧
    (∀ c₁ c₂ : DiagramComponent, c₁.type = ComponentType.switch →
      c₂.type = ComponentType.switch → c₁.state = c₂.state →
      armRotation (symbolFor c₁) = armRotation (symbolFor c₂)) ∧
    (∀ (id : String) (ty : ComponentType) (x y : Rat) (lb : String)
        (s₁ s₂ : Option SwitchState) (w : Option Rat) (t : Option String),
      getTerminalCoords (some ⟨id, ty, x, y, lb, s₁, w⟩) t =
        getTerminalCoords (some ⟨id, ty, x, y, lb, s₂, w⟩) t) := by
  refine ⟨by decide, by decide, ?_, ?_, ?_⟩
  · intro c h1 h2
    simp [symbolFor, h1, h2]
  · intro c₁ c₂ h1 h2 h3
    simp [symbolFor, h1, h2, h3]
  · intro id ty x y lb s₁ s₂ w t
    cases ty <;> rfl

/-- Claim C9, witness: `swSample` (state absent) renders with arm
rotation `-30`, and the `in` terminal of a switch is the same point for
`open` and `closed` states. -/
theorem c9_witness :
    armRotation (symbolFor swSample) = some (-30) ∧
    getTerminalCoords
        (some ⟨"s1", ComponentType.switch, 10, 10, "S", some SwitchState.open_, none⟩)
        (some ("in")) =
      getTerminalCoords
        (some ⟨"s1", ComponentType.switch, 10, 10, "S", some SwitchState.closed, none⟩)
        (some ("in")) :=
  ⟨(congrArg armRotation (c9_switch_rotation.2.2.1 swSample rfl rfl)).trans
      c9_switch_rotation.1,
    c9_switch_rotation.2.2.2.2 ("s1") ComponentType.switch 10 10 ("S")
      (some SwitchState.open_) (some SwitchState.closed) none (some ("in"))⟩

/-- Claim C10: a connection reference without `.` yields the whole string
as component id and an undefined terminal; when the component exists the
undefined terminal resolves to the kind's default terminal (the endpoint
is not skipped); and in a reference with more than one `.`, text after
the second `.` is ignored. -/
theorem c10_missing_terminal_defaults :
    (∀ s : String, '.' ∉ s.data → splitRef s = (s, none)) ∧
    (∀ (cs : List DiagramComponent) (id : String) (c : DiagramComponent),
      componentMapGet cs id = some c →
      getTerminalCoords (some c) none = some (defaultTerminalPoint c)) ∧
    (∀ a b c : String, '.' ∉ a.data → '.' ∉ b.data →
      splitRef (a ++ "." ++ b ++ "." ++ c) = (a, some b)) := by
  refine ⟨?_, ?_, ?_⟩
  · intro s h
    simp [splitRef, splitCh_no_sep '.' s.data h, stringMkData]
  · intro cs id c _
    obtain ⟨cid, ty, x, y, lb, st, w⟩ := c
    cases ty <;>
      simp [getTerminalCoords, defaultTerminalPoint, specDefaultOffset,
        qAdd_eq, qSub_eq, sub_eq_add_neg]
  · intro a b c ha hb
    have hdata : (a ++ "." ++ b ++ "." ++ c).data
        = a.data ++ '.' :: (b.data ++ '.' :: c.data) := by
      simp [String.data_append]
    simp only [splitRef, hdata, splitCh_sep_append '.' a.data _ ha,
      splitCh_sep_append '.' b.data _ hb]
    simp [stringMkData]

/-- Claim C10, witness: the terminal-less reference `b1` splits into id
`b1` and no terminal; a battery found by id resolves the missing terminal
to its default `(0, 20)`; and `a.b.c` splits into id `a`, terminal `b`. -/
theorem c10_witness :
    splitRef ("b1") = ("b1", none) ∧
    getTerminalCoords (some batZero) none = some ⟨0, 20⟩ ∧
    splitRef ("a.b.c") = ("a", some ("b")) :=
  ⟨c10_missing_terminal_defaults.1 ("b1") (by decide),
   (c10_missing_terminal_defaults.2.1 [batZero] "b1" batZero (by decide)).trans
     (by norm_num [defaultTerminalPoint, specDefaultOffset, batZero]),
   c10_missing_terminal_defaults.2.2 ("a") ("b") ("c") (by decide) (by decide)⟩
